import Mathlib

/-!
Verification of the ERC-20 chaincode variants in this repository.

The per-key variant `token-erc-20_peer.go` (mirrored by `token-erc-20-sc.go`
and `token-erc-20.go`) keeps one decimal-string value per account key in the
host key-value store and parses amounts with `strconv.Atoi` (signed,
64-bit `int`, wrapping arithmetic).  The map variant `go/token_erc_20.go`
keeps a single `Token` record (metadata plus a `map[string]uint64` of
balances) under the key `"token"` and parses amounts with
`strconv.ParseUint`, with wrapping `uint64` arithmetic.

The host key-value store is modelled as an association list of string keys
and string values; `GetState` of an absent key is `none` (Go `nil`), and
`PutState` overwrites or appends.  Host faults (store I/O errors, event
marshalling failures) are outside the model: in the Go source those paths
only relay an error from the host, they are not decisions of the contract.
-/

/-- The replicated key-value store: string keys to string values. -/
abbrev Store := List (String × String)

/-- `GetState`: `none` models the `nil` result Go reports for an absent key. -/
def getState : Store → String → Option String
  | [], _ => none
  | (k1, v) :: rest, k => if k1 = k then some v else getState rest k

/-- `PutState`: overwrite the existing binding for the key, or append one. -/
def putState : Store → String → String → Store
  | [], k, v => [(k, v)]
  | (k1, v1) :: rest, k, v =>
      if k1 = k then (k, v) :: rest else (k1, v1) :: putState rest k v

/-- The character for the decimal digit `n` (`n < 10`). -/
def digitChar (n : Nat) : Char := Char.ofNat (48 + n)

/-- Decimal digits of `n`, least significant first; `fuel ≥ n` suffices. -/
def natToRevDigitsAux : Nat → Nat → List Char
  | 0, _ => []
  | _ + 1, 0 => []
  | fuel + 1, n + 1 =>
      digitChar ((n + 1) % 10) :: natToRevDigitsAux fuel ((n + 1) / 10)

/-- Decimal digits of `n`, least significant first (empty for `0`). -/
def natToRevDigits (n : Nat) : List Char := natToRevDigitsAux n n

/-- Decimal rendering of a natural number, as in Go's `strconv`. -/
def natToString (n : Nat) : String :=
  if n = 0 then "0" else String.mk (natToRevDigits n).reverse

/-- Go `strconv.Itoa`: decimal rendering of a (signed) integer. -/
def itoa (i : Int) : String :=
  if i < 0 then "-" ++ natToString i.natAbs else natToString i.toNat

/-- Accumulate the value of a run of decimal digits; fails on a non-digit. -/
def parseDigits : List Char → Nat → Option Nat
  | [], acc => some acc
  | c :: cs, acc =>
      if c.isDigit then parseDigits cs (acc * 10 + (c.toNat - 48)) else none

/-- Digits-and-range part of Go `strconv.ParseInt` for base 10, 64-bit:
`neg` records a leading minus sign already consumed. -/
def atoiCore (neg : Bool) (cs : List Char) : Option Int :=
  match cs with
  | [] => none
  | _ :: _ =>
      match parseDigits cs 0 with
      | none => none
      | some n =>
          if neg then
            if n ≤ 9223372036854775808 then some (-(n : Int)) else none
          else
            if n ≤ 9223372036854775807 then some ((n : Int)) else none

/-- Go `strconv.Atoi` (= `ParseInt(s, 10, 0)` on a 64-bit platform): optional
sign, decimal digits, 64-bit range.  `none` models a non-nil `err`. -/
def atoi (s : String) : Option Int :=
  match s.data with
  | [] => none
  | c :: cs =>
      if c = '+' then atoiCore false cs
      else if c = '-' then atoiCore true cs
      else atoiCore false (c :: cs)

/-- The value the Go code uses where it ignores `Atoi`'s error
(`balance, _ := strconv.Atoi(...)`); stored values are always well-formed
decimal strings produced by `Itoa`, for which this agrees with Go. -/
def atoiOr0 (s : String) : Int := (atoi s).getD 0

/-- Go `strconv.ParseUint(s, 10, 64)`: unsigned decimal digits, no sign,
64-bit range.  `none` models a non-nil `err`. -/
def parseUint64 (s : String) : Option Nat :=
  match s.data with
  | [] => none
  | cs =>
      match parseDigits cs 0 with
      | none => none
      | some n => if n < 18446744073709551616 then some n else none

/-- Wrapping semantics of Go's 64-bit `int` addition and subtraction. -/
def wrap64 (i : Int) : Int :=
  (i + 9223372036854775808) % 18446744073709551616 - 9223372036854775808

/-- The `event` struct of the per-key variants (`from`/`to`/`value` JSON). -/
structure event where
  From : String
  To : String
  Value : Int
deriving DecidableEq, Repr

/-- A chaincode response: `shim.Success` with an optional payload, or
`shim.Error` with a message. -/
inductive Response where
  | success (payload : Option String)
  | error (msg : String)
deriving DecidableEq, Repr

/-- The observable result of one invocation of a per-key-variant operation:
the response, the resulting store, and the events set on the stub. -/
structure Outcome where
  resp : Response
  store : Store
  events : List (String × event)
deriving DecidableEq, Repr

def nameKey : String := "name"
def symbolKey : String := "symbol"
def decimalsKey : String := "decimals"
def totalSupplyKey : String := "totalSupply"

/-- Reading a balance the way the per-key variants do where a `nil` value is
allowed: absent key means `0`, otherwise `Atoi` with the error ignored. -/
def lookupBal (st : Store) (k : String) : Int :=
  match getState st k with
  | none => 0
  | some b => atoiOr0 b

/-- `SmartContract.Mint` of `token-erc-20_peer.go` (lines 74-121). -/
def Mint (st : Store) (args : List String) : Outcome :=
  match args with
  | [minter, amountStr] =>
      match atoi amountStr with
      | none => ⟨.error "Invalid amount. Expecting a numeric string", st, []⟩
      | some amount =>
          let balance := lookupBal st minter
          let balance1 := wrap64 (balance + amount)
          let st1 := putState st minter (itoa balance1)
          ⟨.success none, st1, [("Transfer", ⟨"", minter, amount⟩)]⟩
  | _ => ⟨.error "Incorrect number of arguments. Expecting 2", st, []⟩

/-- `SmartContract.Burn` of `token-erc-20_peer.go` (lines 125-175). -/
def Burn (st : Store) (args : List String) : Outcome :=
  match args with
  | [minter, amountStr] =>
      match atoi amountStr with
      | none => ⟨.error "Invalid amount. Expecting a numeric string", st, []⟩
      | some amount =>
          match getState st minter with
          | none => ⟨.error "Account not found", st, []⟩
          | some balanceBytes =>
              let balance := atoiOr0 balanceBytes
              if balance < amount then ⟨.error "Insufficient balance", st, []⟩
              else
                let balance1 := wrap64 (balance - amount)
                let st1 := putState st minter (itoa balance1)
                ⟨.success none, st1, [("Transfer", ⟨minter, "", amount⟩)]⟩
  | _ => ⟨.error "Incorrect number of arguments. Expecting 2", st, []⟩

/-- `SmartContract.Transfer` of `token-erc-20_peer.go` (lines 180-246). -/
def Transfer (st : Store) (args : List String) : Outcome :=
  match args with
  | [fromAcct, toAcct, amountStr] =>
      match atoi amountStr with
      | none => ⟨.error "Invalid amount. Expecting a numeric string", st, []⟩
      | some amount =>
          match getState st fromAcct with
          | none => ⟨.error "Sender account not found", st, []⟩
          | some fromBalanceBytes =>
              let fromBalance := atoiOr0 fromBalanceBytes
              let toBalance := lookupBal st toAcct
              if fromBalance < amount then
                ⟨.error "Insufficient balance", st, []⟩
              else
                let fromBalance1 := wrap64 (fromBalance - amount)
                let toBalance1 := wrap64 (toBalance + amount)
                let st1 := putState st fromAcct (itoa fromBalance1)
                let st2 := putState st1 toAcct (itoa toBalance1)
                ⟨.success none, st2, [("Transfer", ⟨fromAcct, toAcct, amount⟩)]⟩
  | _ => ⟨.error "Incorrect number of arguments. Expecting 3", st, []⟩

/-- `SmartContract.BalanceOf` of `token-erc-20_peer.go` (lines 249-265). -/
def BalanceOf (st : Store) (args : List String) : Outcome :=
  match args with
  | [account] =>
      match getState st account with
      | none => ⟨.error "Account not found", st, []⟩
      | some balanceBytes => ⟨.success (some balanceBytes), st, []⟩
  | _ => ⟨.error "Incorrect number of arguments. Expecting 1", st, []⟩

/-- `SmartContract.Approve` of `token-erc-20_peer.go` (lines 308-328);
the allowance key is `"allowance" + owner + spender`. -/
def Approve (st : Store) (args : List String) : Outcome :=
  match args with
  | [owner, spender, amountStr] =>
      match atoi amountStr with
      | none => ⟨.error "Invalid amount. Expecting a numeric string", st, []⟩
      | some amount =>
          let allowanceKey := "allowance" ++ owner ++ spender
          let st1 := putState st allowanceKey (itoa amount)
          ⟨.success none, st1, []⟩
  | _ => ⟨.error "Incorrect number of arguments. Expecting 3", st, []⟩

/-- `SmartContract.Allowance` of `token-erc-20_peer.go` (lines 331-348). -/
def Allowance (st : Store) (args : List String) : Outcome :=
  match args with
  | [owner, spender] =>
      let allowanceKey := "allowance" ++ owner ++ spender
      match getState st allowanceKey with
      | none => ⟨.error "Allowance not found", st, []⟩
      | some allowanceBytes => ⟨.success (some allowanceBytes), st, []⟩
  | _ => ⟨.error "Incorrect number of arguments. Expecting 2", st, []⟩

/-- `SmartContract.TransferFrom` of `token-erc-20_peer.go` (lines 352-441). -/
def TransferFrom (st : Store) (args : List String) : Outcome :=
  match args with
  | [owner, spender, toAcct, amountStr] =>
      match atoi amountStr with
      | none => ⟨.error "Invalid amount. Expecting a numeric string", st, []⟩
      | some amount =>
          let allowanceKey := "allowance" ++ owner ++ spender
          match getState st allowanceKey with
          | none => ⟨.error "Allowance not found", st, []⟩
          | some allowanceBytes =>
              let allowance := atoiOr0 allowanceBytes
              if allowance < amount then ⟨.error "Allowance exceeded", st, []⟩
              else
                match getState st owner with
                | none => ⟨.error "Owner account not found", st, []⟩
                | some fromBalanceBytes =>
                    let fromBalance := atoiOr0 fromBalanceBytes
                    let toBalance := lookupBal st toAcct
                    if fromBalance < amount then
                      ⟨.error "Insufficient balance", st, []⟩
                    else
                      let fromBalance1 := wrap64 (fromBalance - amount)
                      let toBalance1 := wrap64 (toBalance + amount)
                      let allowance1 := wrap64 (allowance - amount)
                      let st1 := putState st owner (itoa fromBalance1)
                      let st2 := putState st1 toAcct (itoa toBalance1)
                      let st3 := putState st2 allowanceKey (itoa allowance1)
                      ⟨.success none, st3, [("Transfer", ⟨owner, toAcct, amount⟩)]⟩
  | _ => ⟨.error "Incorrect number of arguments. Expecting 4", st, []⟩

/-- `SmartContract.Initialize` of `token-erc-20_peer.go` (lines 468-505). -/
def InitializeOp (st : Store) (args : List String) : Outcome :=
  match args with
  | [name, symbol, decimalsStr, totalSupplyStr] =>
      match atoi decimalsStr with
      | none => ⟨.error "Invalid decimals. Expecting a numeric string", st, []⟩
      | some decimals =>
          match atoi totalSupplyStr with
          | none => ⟨.error "Invalid total supply. Expecting a numeric string", st, []⟩
          | some totalSupply =>
              let st1 := putState st nameKey name
              let st2 := putState st1 symbolKey symbol
              let st3 := putState st2 decimalsKey (itoa decimals)
              let st4 := putState st3 totalSupplyKey (itoa totalSupply)
              ⟨.success none, st4, []⟩
  | _ => ⟨.error "Incorrect number of arguments. Expecting 4", st, []⟩

/-- The six mutating operations of the per-key variants (claim C3's list). -/
inductive OpName where
  | initializeOp | mint | burn | transfer | approve | transferFrom
deriving DecidableEq, Repr

/-- Dispatch, as in `SmartContract.Invoke`, restricted to the mutators. -/
def applyOp : OpName → Store → List String → Outcome
  | .initializeOp, st, args => InitializeOp st args
  | .mint, st, args => Mint st args
  | .burn, st, args => Burn st args
  | .transfer, st, args => Transfer st args
  | .approve, st, args => Approve st args
  | .transferFrom, st, args => TransferFrom st args

/-- The error messages the per-key variants report for failures caused by
argument count, argument parsing, insufficient balance, insufficient or
absent allowance, or a missing account. -/
def validationMsgs : List String :=
  [ "Incorrect number of arguments. Expecting 1"
  , "Incorrect number of arguments. Expecting 2"
  , "Incorrect number of arguments. Expecting 3"
  , "Incorrect number of arguments. Expecting 4"
  , "Invalid amount. Expecting a numeric string"
  , "Invalid decimals. Expecting a numeric string"
  , "Invalid total supply. Expecting a numeric string"
  , "Insufficient balance"
  , "Allowance not found"
  , "Allowance exceeded"
  , "Account not found"
  , "Sender account not found"
  , "Owner account not found" ]

/-- The `Token` record of the map variant `go/token_erc_20.go`: metadata plus
the balance map, persisted as one JSON value under the key `"token"`. -/
structure Token where
  name : String
  symbol : String
  total : Nat
  decimals : Nat
  balance : List (String × Nat)
deriving DecidableEq, Repr

/-- Go map read with the `uint64` zero value for an absent key. -/
def mapGet : List (String × Nat) → String → Nat
  | [], _ => 0
  | (k1, v) :: rest, k => if k1 = k then v else mapGet rest k

/-- Go two-result map read: `none` when the key is absent. -/
def mapGetOpt : List (String × Nat) → String → Option Nat
  | [], _ => none
  | (k1, v) :: rest, k => if k1 = k then some v else mapGetOpt rest k

/-- Go map write: overwrite the existing entry or add one. -/
def mapInsert : List (String × Nat) → String → Nat → List (String × Nat)
  | [], k, v => [(k, v)]
  | (k1, v1) :: rest, k, v =>
      if k1 = k then (k, v) :: rest else (k1, v1) :: mapInsert rest k v

/-- Result of a map-variant invocation: the response, the `"token"` record in
the store (`none` when never initialized), and the events set on the stub
(whose payloads are plain text there). -/
structure GoOutcome where
  resp : Response
  store : Option Token
  events : List (String × String)
deriving DecidableEq, Repr

namespace TokenERC20Chaincode

/-- `TokenERC20Chaincode.Mint` of `go/token_erc_20.go` (lines 108-157).
`creatorHex` is `hex.EncodeToString` of the caller identity bytes; `uint64`
additions wrap modulo `2^64`.  When the `"token"` key is absent,
`json.Unmarshal(nil, ...)` fails and the operation errors without writing. -/
def Mint (st : Option Token) (creatorHex : String) (args : List String) : GoOutcome :=
  match args with
  | [amountStr] =>
      match parseUint64 amountStr with
      | none => ⟨.error "Invalid amount", st, []⟩
      | some amount =>
          match st with
          | none => ⟨.error "Failed to unmarshal token", st, []⟩
          | some token =>
              let token1 : Token :=
                { token with
                  total := (token.total + amount) % 18446744073709551616
                  balance := mapInsert token.balance creatorHex
                    ((mapGet token.balance creatorHex + amount) % 18446744073709551616) }
              ⟨.success none, some token1,
                [("Transfer", "Minted " ++ natToString amount ++ " tokens to " ++ creatorHex)]⟩
  | _ => ⟨.error "Incorrect number of arguments. Expecting 1: amount", st, []⟩

/-- `TokenERC20Chaincode.ClientAccountBalance` of `go/token_erc_20.go`
(lines 160-195).  `clientIDHex` is the hex encoding of the caller identity.
When the caller has no entry in the balance map, the function inserts a zero
entry and writes the token record back before returning `"0"`. -/
def ClientAccountBalance (st : Option Token) (clientIDHex : String) : GoOutcome :=
  match st with
  | none => ⟨.error "Failed to unmarshal token", st, []⟩
  | some token =>
      match mapGetOpt token.balance clientIDHex with
      | some balance => ⟨.success (some (natToString balance)), st, []⟩
      | none =>
          let token1 : Token := { token with balance := mapInsert token.balance clientIDHex 0 }
          ⟨.success (some (natToString 0)), some token1, []⟩

end TokenERC20Chaincode

theorem getState_putState_self (st : Store) (k v : String) :
    getState (putState st k v) k = some v := by
  induction st with
  | nil => simp [putState, getState]
  | cons hd tl ih =>
      by_cases h : hd.1 = k
      · simp [putState, h, getState]
      · simp [putState, h, getState, ih]

theorem getState_putState_other (st : Store) (k v k2 : String) (h : k2 ≠ k) :
    getState (putState st k v) k2 = getState st k2 := by
  have hk2k : ¬(k = k2) := fun hh => h hh.symm
  induction st with
  | nil => simp [putState, getState, hk2k]
  | cons hd tl ih =>
      obtain ⟨k1, v1⟩ := hd
      by_cases hk : k1 = k
      · subst hk
        simp [putState, getState, hk2k]
      · simp [putState, hk, getState, ih]

theorem wrap64_eq (i : Int)
    (h1 : -9223372036854775808 ≤ i) (h2 : i < 9223372036854775808) :
    wrap64 i = i := by
  unfold wrap64; omega

theorem wrap64_bounds (i : Int) :
    -9223372036854775808 ≤ wrap64 i ∧ wrap64 i < 9223372036854775808 := by
  unfold wrap64; omega

theorem atoiCore_bound (neg : Bool) (cs : List Char) (i : Int)
    (h : atoiCore neg cs = some i) :
    -9223372036854775808 ≤ i ∧ i ≤ 9223372036854775807 := by
  unfold atoiCore at h
  repeat' split at h
  all_goals first
    | (injection h with h2; omega)
    | exact absurd h (by simp)

theorem atoi_bound (s : String) (i : Int) (h : atoi s = some i) :
    -9223372036854775808 ≤ i ∧ i ≤ 9223372036854775807 := by
  unfold atoi at h
  split at h
  · exact absurd h (by simp)
  · split at h
    · exact atoiCore_bound _ _ _ h
    · split at h
      · exact atoiCore_bound _ _ _ h
      · exact atoiCore_bound _ _ _ h

theorem atoiOr0_bound (s : String) :
    -9223372036854775808 ≤ atoiOr0 s ∧ atoiOr0 s ≤ 9223372036854775807 := by
  unfold atoiOr0
  cases h : atoi s with
  | none => simp
  | some i => simpa using atoi_bound s i h

theorem lookupBal_bound (st : Store) (k : String) :
    -9223372036854775808 ≤ lookupBal st k ∧ lookupBal st k ≤ 9223372036854775807 := by
  unfold lookupBal
  cases getState st k with
  | none => simp
  | some b => exact atoiOr0_bound b

theorem digitChar_isDigit (m : Nat) (h : m < 10) : (digitChar m).isDigit = true := by
  interval_cases m <;> decide

theorem digitChar_toNat (m : Nat) (h : m < 10) : (digitChar m).toNat - 48 = m := by
  interval_cases m <;> decide

theorem isDigit_ne_plus (c : Char) (h : c.isDigit = true) : c ≠ '+' := by
  intro hc; rw [hc] at h; exact absurd h (by decide)

theorem isDigit_ne_minus (c : Char) (h : c.isDigit = true) : c ≠ '-' := by
  intro hc; rw [hc] at h; exact absurd h (by decide)

theorem parseDigits_all_digits (cs : List Char) (acc : Nat)
    (h : ∀ c ∈ cs, c.isDigit = true) :
    parseDigits cs acc = some (cs.foldl (fun a c => a * 10 + (c.toNat - 48)) acc) := by
  induction cs generalizing acc with
  | nil => rfl
  | cons c cs ih =>
      have hc : c.isDigit = true := h c (by simp)
      simp only [parseDigits, hc, if_true, List.foldl_cons]
      exact ih _ (fun d hd => h d (by simp [hd]))

theorem natToRevDigitsAux_digits (fuel : Nat) :
    ∀ n, ∀ c ∈ natToRevDigitsAux fuel n, c.isDigit = true := by
  induction fuel with
  | zero => intro n c hc; simp [natToRevDigitsAux] at hc
  | succ fuel ih =>
      intro n c hc
      cases n with
      | zero => simp [natToRevDigitsAux] at hc
      | succ m =>
          simp only [natToRevDigitsAux, List.mem_cons] at hc
          rcases hc with h | h
          · subst h; exact digitChar_isDigit _ (Nat.mod_lt _ (by omega))
          · exact ih _ _ h

theorem natToRevDigitsAux_foldr (fuel : Nat) :
    ∀ n, n ≤ fuel →
      (natToRevDigitsAux fuel n).foldr (fun c a => a * 10 + (c.toNat - 48)) 0 = n := by
  induction fuel with
  | zero => intro n h; interval_cases n; rfl
  | succ fuel ih =>
      intro n hn
      cases n with
      | zero => rfl
      | succ m =>
          have hdiv : (m + 1) / 10 ≤ fuel := by
            have := Nat.div_lt_self (Nat.succ_pos m) (by omega : 1 < 10)
            omega
          simp only [natToRevDigitsAux, List.foldr_cons]
          rw [ih _ hdiv, digitChar_toNat _ (Nat.mod_lt _ (by omega))]
          omega

theorem natToString_spec (n : Nat) (hn : 0 < n) :
    ∃ c cs, (natToString n).data = c :: cs ∧ (∀ d ∈ c :: cs, d.isDigit = true) ∧
      (c :: cs).foldl (fun a d => a * 10 + (d.toNat - 48)) 0 = n := by
  have hne : natToString n = String.mk (natToRevDigits n).reverse := by
    unfold natToString; rw [if_neg (by omega)]
  cases hrev : (natToRevDigits n).reverse with
  | nil =>
      exfalso
      have : natToRevDigits n = [] := by
        have := congrArg List.reverse hrev
        simpa using this
      unfold natToRevDigits at this
      cases n with
      | zero => omega
      | succ m => simp [natToRevDigitsAux] at this
  | cons c cs =>
      refine ⟨c, cs, ?_, ?_, ?_⟩
      · rw [hne, hrev]
      · intro d hd
        have : d ∈ (natToRevDigits n).reverse := by rw [hrev]; exact hd
        exact natToRevDigitsAux_digits _ _ d (List.mem_reverse.mp this)
      · have : (natToRevDigits n).reverse.foldl (fun a d => a * 10 + (d.toNat - 48)) 0 = n := by
          rw [List.foldl_reverse]
          exact natToRevDigitsAux_foldr _ _ (le_refl _)
        rw [hrev] at this; exact this

theorem atoi_natToString (n : Nat) (hn : n ≤ 9223372036854775807) :
    atoi (natToString n) = some (n : Int) := by
  cases Nat.eq_zero_or_pos n with
  | inl h0 => subst h0; rfl
  | inr hpos =>
      obtain ⟨c, cs, hdata, hdig, hval⟩ := natToString_spec n hpos
      have hc : c.isDigit = true := hdig c (by simp)
      unfold atoi
      rw [hdata]
      simp only [if_neg (isDigit_ne_plus c hc), if_neg (isDigit_ne_minus c hc)]
      unfold atoiCore
      rw [parseDigits_all_digits _ _ hdig, hval]
      simp [hn]

theorem atoi_itoa (i : Int)
    (h1 : -9223372036854775808 ≤ i) (h2 : i ≤ 9223372036854775807) :
    atoi (itoa i) = some i := by
  by_cases hi : i < 0
  · have hpos : 0 < i.natAbs := by omega
    obtain ⟨c, cs, hdata, hdig, hval⟩ := natToString_spec i.natAbs hpos
    have heq : itoa i = "-" ++ natToString i.natAbs := by unfold itoa; rw [if_pos hi]
    have hd : ("-" ++ natToString i.natAbs).data = '-' :: (c :: cs) := by
      rw [String.data_append, hdata]; rfl
    have step : atoi ("-" ++ natToString i.natAbs) = atoiCore true (c :: cs) := by
      unfold atoi
      rw [hd]
      simp
    rw [heq, step]
    unfold atoiCore
    rw [parseDigits_all_digits _ _ hdig, hval]
    have hb : i.natAbs ≤ 9223372036854775808 := by omega
    show (if i.natAbs ≤ 9223372036854775808 then some (-(i.natAbs : Int)) else none) = some i
    rw [if_pos hb]
    congr 1
    omega
  · have heq : itoa i = natToString i.toNat := by unfold itoa; rw [if_neg hi]
    rw [heq, atoi_natToString i.toNat (by omega)]
    congr 1
    omega

theorem atoiOr0_itoa (i : Int)
    (h1 : -9223372036854775808 ≤ i) (h2 : i ≤ 9223372036854775807) :
    atoiOr0 (itoa i) = i := by
  unfold atoiOr0; rw [atoi_itoa i h1 h2]; rfl

theorem atoiOr0_itoa_wrap (i : Int) : atoiOr0 (itoa (wrap64 i)) = wrap64 i := by
  have h := wrap64_bounds i
  exact atoiOr0_itoa _ h.1 (by omega)

theorem mapGetOpt_mapInsert_self (m : List (String × Nat)) (k : String) (v : Nat) :
    mapGetOpt (mapInsert m k v) k = some v := by
  induction m with
  | nil => simp [mapInsert, mapGetOpt]
  | cons hd tl ih =>
      by_cases h : hd.1 = k
      · simp [mapInsert, h, mapGetOpt]
      · simp [mapInsert, h, mapGetOpt, ih]

theorem allowance_key_ne_empty (owner spender : String) :
    ("allowance" ++ owner ++ spender) ≠ "" := by
  intro h
  have hlen := congrArg String.length h
  rw [String.length_append, String.length_append] at hlen
  have h9 : ("allowance" : String).length = 9 := rfl
  have h0 : ("" : String).length = 0 := rfl
  omega

theorem lookupBal_eq (st : Store) (k v : String) (h : getState st k = some v) :
    lookupBal st k = atoiOr0 v := by
  unfold lookupBal; rw [h]

theorem lookupBal_putState_self (st : Store) (k : String) (i : Int)
    (h1 : -9223372036854775808 ≤ i) (h2 : i ≤ 9223372036854775807) :
    lookupBal (putState st k (itoa i)) k = i := by
  unfold lookupBal
  rw [getState_putState_self]
  exact atoiOr0_itoa _ h1 h2

theorem lookupBal_putState_other (st : Store) (k v k2 : String) (h : k2 ≠ k) :
    lookupBal (putState st k v) k2 = lookupBal st k2 := by
  unfold lookupBal
  rw [getState_putState_other _ _ _ _ h]

/-- Claim C1, counterexample: `Transfer` with sender equal to recipient does
not conserve the pair of balances.  From the store where account `"a"` holds
`"5"`, `Transfer("a", "a", "3")` succeeds and leaves `"a"` holding `"8"` —
the second `PutState` (the credit) overwrites the first (the debit) — not the
`"2"` the claim's "sender's balance decreases by exactly amount" requires,
and the balance sum grows from 5 to 8. -/
theorem C1_self_transfer_counterexample :
    (Transfer [("a", "5")] ["a", "a", "3"]).resp = .success none ∧
    getState (Transfer [("a", "5")] ["a", "a", "3"]).store "a" = some "8" ∧
    ¬ getState (Transfer [("a", "5")] ["a", "a", "3"]).store "a" = some "2" := by
  decide

/-- Claim C1 (corrected): for every `Transfer(to, amount)` invocation with a
distinct sender and recipient, a stored sender balance of at least `amount`
(and no 64-bit overflow on the credit), the sender's balance decreases by
exactly `amount`, the recipient's balance increases by exactly `amount`, and
the sum of the two balances is conserved.  When sender and recipient are the
same address, the recipient write overwrites the debit and the single
balance increases by `amount`.  When the sender balance is less than
`amount`, the store is unchanged and an "Insufficient balance" error is
reported. -/
theorem C1_transfer_amended :
    (∀ st fromAcct toAcct fbs amountStr amt,
      getState st fromAcct = some fbs → atoi amountStr = some amt →
      0 ≤ amt → amt ≤ atoiOr0 fbs → fromAcct ≠ toAcct →
      lookupBal st toAcct + amt < 9223372036854775808 →
      Transfer st [fromAcct, toAcct, amountStr] =
        ⟨.success none,
         putState (putState st fromAcct (itoa (atoiOr0 fbs - amt))) toAcct
           (itoa (lookupBal st toAcct + amt)),
         [("Transfer", ⟨fromAcct, toAcct, amt⟩)]⟩ ∧
      lookupBal (Transfer st [fromAcct, toAcct, amountStr]).store fromAcct
          = atoiOr0 fbs - amt ∧
      lookupBal (Transfer st [fromAcct, toAcct, amountStr]).store toAcct
          = lookupBal st toAcct + amt ∧
      lookupBal (Transfer st [fromAcct, toAcct, amountStr]).store fromAcct +
        lookupBal (Transfer st [fromAcct, toAcct, amountStr]).store toAcct
          = lookupBal st fromAcct + lookupBal st toAcct) ∧
    (∀ st fromAcct fbs amountStr amt,
      getState st fromAcct = some fbs → atoi amountStr = some amt →
      0 ≤ amt → amt ≤ atoiOr0 fbs →
      atoiOr0 fbs + amt < 9223372036854775808 →
      lookupBal (Transfer st [fromAcct, fromAcct, amountStr]).store fromAcct
          = atoiOr0 fbs + amt) ∧
    (∀ st fromAcct toAcct fbs amountStr amt,
      getState st fromAcct = some fbs → atoi amountStr = some amt →
      atoiOr0 fbs < amt →
      Transfer st [fromAcct, toAcct, amountStr] =
        ⟨.error "Insufficient balance", st, []⟩) := by
  refine ⟨?_, ?_, ?_⟩
  · intro st fromAcct toAcct fbs amountStr amt hg hp h0 hle hne hov
    have hbb := atoiOr0_bound fbs
    have htb := lookupBal_bound st toAcct
    have hw1 : wrap64 (atoiOr0 fbs - amt) = atoiOr0 fbs - amt :=
      wrap64_eq _ (by omega) (by omega)
    have hw2 : wrap64 (lookupBal st toAcct + amt) = lookupBal st toAcct + amt :=
      wrap64_eq _ (by omega) (by omega)
    have hout : Transfer st [fromAcct, toAcct, amountStr] =
        ⟨.success none,
         putState (putState st fromAcct (itoa (atoiOr0 fbs - amt))) toAcct
           (itoa (lookupBal st toAcct + amt)),
         [("Transfer", ⟨fromAcct, toAcct, amt⟩)]⟩ := by
      unfold Transfer
      simp only [hp, hg]
      rw [if_neg (not_lt.mpr hle), hw1, hw2]
    have hlf : lookupBal st fromAcct = atoiOr0 fbs := by unfold lookupBal; rw [hg]
    have hpf : lookupBal (Transfer st [fromAcct, toAcct, amountStr]).store fromAcct
        = atoiOr0 fbs - amt := by
      rw [hout]
      show lookupBal (putState (putState st fromAcct (itoa (atoiOr0 fbs - amt))) toAcct
        (itoa (lookupBal st toAcct + amt))) fromAcct = atoiOr0 fbs - amt
      rw [lookupBal_putState_other _ _ _ _ hne]
      exact lookupBal_putState_self _ _ _ (by omega) (by omega)
    have hpt : lookupBal (Transfer st [fromAcct, toAcct, amountStr]).store toAcct
        = lookupBal st toAcct + amt := by
      rw [hout]
      show lookupBal (putState (putState st fromAcct (itoa (atoiOr0 fbs - amt))) toAcct
        (itoa (lookupBal st toAcct + amt))) toAcct = lookupBal st toAcct + amt
      exact lookupBal_putState_self _ _ _ (by omega) (by omega)
    refine ⟨hout, hpf, hpt, ?_⟩
    rw [hpf, hpt, hlf]
    omega
  · intro st fromAcct fbs amountStr amt hg hp h0 hle hov
    have hbb := atoiOr0_bound fbs
    have hlf : lookupBal st fromAcct = atoiOr0 fbs := by unfold lookupBal; rw [hg]
    have hw1 : wrap64 (atoiOr0 fbs - amt) = atoiOr0 fbs - amt :=
      wrap64_eq _ (by omega) (by omega)
    have hw2 : wrap64 (lookupBal st fromAcct + amt) = atoiOr0 fbs + amt := by
      rw [hlf]; exact wrap64_eq _ (by omega) (by omega)
    have hout : Transfer st [fromAcct, fromAcct, amountStr] =
        ⟨.success none,
         putState (putState st fromAcct (itoa (atoiOr0 fbs - amt))) fromAcct
           (itoa (atoiOr0 fbs + amt)),
         [("Transfer", ⟨fromAcct, fromAcct, amt⟩)]⟩ := by
      unfold Transfer
      simp only [hp, hg]
      rw [if_neg (not_lt.mpr hle), hw1, hw2]
    rw [hout]
    show lookupBal (putState (putState st fromAcct (itoa (atoiOr0 fbs - amt))) fromAcct
      (itoa (atoiOr0 fbs + amt))) fromAcct = atoiOr0 fbs + amt
    exact lookupBal_putState_self _ _ _ (by omega) (by omega)
  · intro st fromAcct toAcct fbs amountStr amt hg hp hlt
    unfold Transfer
    simp only [hp, hg]
    rw [if_pos hlt]

/-- Witness for the C1 theorem: in the store where `"a"` holds `"5"` and
`"b"` holds `"2"`, `Transfer("a", "b", "3")` gives `"a" = 2`, `"b" = 5`,
conserving the sum `7`. -/
theorem C1_transfer_amended_witness :
    Transfer [("a", "5"), ("b", "2")] ["a", "b", "3"] =
      ⟨.success none,
       putState (putState [("a", "5"), ("b", "2")] "a" (itoa (atoiOr0 "5" - 3))) "b"
         (itoa (lookupBal [("a", "5"), ("b", "2")] "b" + 3)),
       [("Transfer", ⟨"a", "b", 3⟩)]⟩ ∧
    lookupBal (Transfer [("a", "5"), ("b", "2")] ["a", "b", "3"]).store "a"
        = atoiOr0 "5" - 3 ∧
    lookupBal (Transfer [("a", "5"), ("b", "2")] ["a", "b", "3"]).store "b"
        = lookupBal [("a", "5"), ("b", "2")] "b" + 3 ∧
    lookupBal (Transfer [("a", "5"), ("b", "2")] ["a", "b", "3"]).store "a" +
      lookupBal (Transfer [("a", "5"), ("b", "2")] ["a", "b", "3"]).store "b"
        = lookupBal [("a", "5"), ("b", "2")] "a" + lookupBal [("a", "5"), ("b", "2")] "b" :=
  C1_transfer_amended.1 [("a", "5"), ("b", "2")] "a" "b" "5" "3" 3
    (by decide) (by decide) (by decide) (by decide) (by decide) (by decide)

/-- Claim C2, counterexample: `TransferFrom` with `owner = to` does not
decrease the owner balance.  With allowance `("o","s") = 10` (stored under
key `"allowanceos"`) and owner balance `"o" = 5`,
`TransferFrom("o", "s", "o", "3")` succeeds, yet `"o"` afterwards holds
`"8"` — the credit write overwrites the debit — not the `"2"` required by
"the owner balance has decreased by exactly amount". -/
theorem C2_self_transferFrom_counterexample :
    (TransferFrom [("allowanceos", "10"), ("o", "5")] ["o", "s", "o", "3"]).resp
        = .success none ∧
    getState (TransferFrom [("allowanceos", "10"), ("o", "5")] ["o", "s", "o", "3"]).store "o"
        = some "8" ∧
    ¬ getState (TransferFrom [("allowanceos", "10"), ("o", "5")] ["o", "s", "o", "3"]).store "o"
        = some "2" ∧
    getState (TransferFrom [("allowanceos", "10"), ("o", "5")] ["o", "s", "o", "3"]).store
        "allowanceos" = some "7" := by
  decide

/-- Claim C2 (corrected): for every `TransferFrom(owner, spender, to, amount)`
with `owner ≠ to`, stored allowance at least `amount`, stored owner balance
at least `amount` (and no 64-bit overflow on the credit), the owner balance
decreases by exactly `amount`, the `to` balance increases by exactly
`amount`, and the `(owner, spender)` allowance decreases by exactly
`amount`.  When `owner = to`, the credit write overwrites the debit, so the
owner balance increases by `amount` while the allowance still decreases.
Every failed check (absent or insufficient allowance, missing owner account,
insufficient owner balance) reports an error and leaves the store — hence
all three stored values — unchanged. -/
theorem C2_transferFrom_amended :
    (∀ st owner spender toAcct als fbs amountStr amt,
      getState st ("allowance" ++ owner ++ spender) = some als →
      getState st owner = some fbs →
      atoi amountStr = some amt → 0 ≤ amt →
      amt ≤ atoiOr0 als → amt ≤ atoiOr0 fbs →
      owner ≠ toAcct → owner ≠ ("allowance" ++ owner ++ spender) →
      toAcct ≠ ("allowance" ++ owner ++ spender) →
      lookupBal st toAcct + amt < 9223372036854775808 →
      lookupBal (TransferFrom st [owner, spender, toAcct, amountStr]).store owner
          = atoiOr0 fbs - amt ∧
      lookupBal (TransferFrom st [owner, spender, toAcct, amountStr]).store toAcct
          = lookupBal st toAcct + amt ∧
      getState (TransferFrom st [owner, spender, toAcct, amountStr]).store
          ("allowance" ++ owner ++ spender) = some (itoa (atoiOr0 als - amt)) ∧
      (TransferFrom st [owner, spender, toAcct, amountStr]).resp = .success none) ∧
    (∀ st owner spender als fbs amountStr amt,
      getState st ("allowance" ++ owner ++ spender) = some als →
      getState st owner = some fbs →
      atoi amountStr = some amt → 0 ≤ amt →
      amt ≤ atoiOr0 als → amt ≤ atoiOr0 fbs →
      owner ≠ ("allowance" ++ owner ++ spender) →
      atoiOr0 fbs + amt < 9223372036854775808 →
      lookupBal (TransferFrom st [owner, spender, owner, amountStr]).store owner
          = atoiOr0 fbs + amt ∧
      getState (TransferFrom st [owner, spender, owner, amountStr]).store
          ("allowance" ++ owner ++ spender) = some (itoa (atoiOr0 als - amt))) ∧
    (∀ st args m st2 evs,
      TransferFrom st args = ⟨.error m, st2, evs⟩ → st2 = st) ∧
    (∀ st owner spender toAcct als amountStr amt,
      getState st ("allowance" ++ owner ++ spender) = some als →
      atoi amountStr = some amt → atoiOr0 als < amt →
      TransferFrom st [owner, spender, toAcct, amountStr] =
        ⟨.error "Allowance exceeded", st, []⟩) ∧
    (∀ st owner spender toAcct als fbs amountStr amt,
      getState st ("allowance" ++ owner ++ spender) = some als →
      getState st owner = some fbs →
      atoi amountStr = some amt → amt ≤ atoiOr0 als → atoiOr0 fbs < amt →
      TransferFrom st [owner, spender, toAcct, amountStr] =
        ⟨.error "Insufficient balance", st, []⟩) := by
  refine ⟨?_, ?_, ?_, ?_, ?_⟩
  · intro st owner spender toAcct als fbs amountStr amt hal hg hp h0 hla hlb hne hoak htak hov
    have hbb := atoiOr0_bound fbs
    have hba := atoiOr0_bound als
    have htb := lookupBal_bound st toAcct
    have hw1 : wrap64 (atoiOr0 fbs - amt) = atoiOr0 fbs - amt :=
      wrap64_eq _ (by omega) (by omega)
    have hw2 : wrap64 (lookupBal st toAcct + amt) = lookupBal st toAcct + amt :=
      wrap64_eq _ (by omega) (by omega)
    have hw3 : wrap64 (atoiOr0 als - amt) = atoiOr0 als - amt :=
      wrap64_eq _ (by omega) (by omega)
    have hout : TransferFrom st [owner, spender, toAcct, amountStr] =
        ⟨.success none,
         putState (putState (putState st owner (itoa (atoiOr0 fbs - amt))) toAcct
             (itoa (lookupBal st toAcct + amt))) ("allowance" ++ owner ++ spender)
           (itoa (atoiOr0 als - amt)),
         [("Transfer", ⟨owner, toAcct, amt⟩)]⟩ := by
      unfold TransferFrom
      simp only [hp, hal, hg]
      rw [if_neg (not_lt.mpr hla), if_neg (not_lt.mpr hlb), hw1, hw2, hw3]
    refine ⟨?_, ?_, ?_, ?_⟩
    · rw [hout]
      show lookupBal (putState (putState (putState st owner (itoa (atoiOr0 fbs - amt))) toAcct
          (itoa (lookupBal st toAcct + amt))) ("allowance" ++ owner ++ spender)
          (itoa (atoiOr0 als - amt))) owner = atoiOr0 fbs - amt
      rw [lookupBal_putState_other _ _ _ _ hoak, lookupBal_putState_other _ _ _ _ hne]
      exact lookupBal_putState_self _ _ _ (by omega) (by omega)
    · rw [hout]
      show lookupBal (putState (putState (putState st owner (itoa (atoiOr0 fbs - amt))) toAcct
          (itoa (lookupBal st toAcct + amt))) ("allowance" ++ owner ++ spender)
          (itoa (atoiOr0 als - amt))) toAcct = lookupBal st toAcct + amt
      rw [lookupBal_putState_other _ _ _ _ htak]
      exact lookupBal_putState_self _ _ _ (by omega) (by omega)
    · rw [hout]
      show getState (putState (putState (putState st owner (itoa (atoiOr0 fbs - amt))) toAcct
          (itoa (lookupBal st toAcct + amt))) ("allowance" ++ owner ++ spender)
          (itoa (atoiOr0 als - amt))) ("allowance" ++ owner ++ spender)
          = some (itoa (atoiOr0 als - amt))
      exact getState_putState_self _ _ _
    · rw [hout]
  · intro st owner spender als fbs amountStr amt hal hg hp h0 hla hlb hoak hov
    have hbb := atoiOr0_bound fbs
    have hba := atoiOr0_bound als
    have hlf : lookupBal st owner = atoiOr0 fbs := lookupBal_eq _ _ _ hg
    have hw1 : wrap64 (atoiOr0 fbs - amt) = atoiOr0 fbs - amt :=
      wrap64_eq _ (by omega) (by omega)
    have hw2 : wrap64 (lookupBal st owner + amt) = atoiOr0 fbs + amt := by
      rw [hlf]; exact wrap64_eq _ (by omega) (by omega)
    have hw3 : wrap64 (atoiOr0 als - amt) = atoiOr0 als - amt :=
      wrap64_eq _ (by omega) (by omega)
    have hout : TransferFrom st [owner, spender, owner, amountStr] =
        ⟨.success none,
         putState (putState (putState st owner (itoa (atoiOr0 fbs - amt))) owner
             (itoa (atoiOr0 fbs + amt))) ("allowance" ++ owner ++ spender)
           (itoa (atoiOr0 als - amt)),
         [("Transfer", ⟨owner, owner, amt⟩)]⟩ := by
      unfold TransferFrom
      simp only [hp, hal, hg]
      rw [if_neg (not_lt.mpr hla), if_neg (not_lt.mpr hlb), hw1, hw2, hw3]
    refine ⟨?_, ?_⟩
    · rw [hout]
      show lookupBal (putState (putState (putState st owner (itoa (atoiOr0 fbs - amt))) owner
          (itoa (atoiOr0 fbs + amt))) ("allowance" ++ owner ++ spender)
          (itoa (atoiOr0 als - amt))) owner = atoiOr0 fbs + amt
      rw [lookupBal_putState_other _ _ _ _ hoak]
      exact lookupBal_putState_self _ _ _ (by omega) (by omega)
    · rw [hout]
      show getState (putState (putState (putState st owner (itoa (atoiOr0 fbs - amt))) owner
          (itoa (atoiOr0 fbs + amt))) ("allowance" ++ owner ++ spender)
          (itoa (atoiOr0 als - amt))) ("allowance" ++ owner ++ spender)
          = some (itoa (atoiOr0 als - amt))
      exact getState_putState_self _ _ _
  · intro st args m st2 evs h
    unfold TransferFrom at h
    dsimp only at h
    repeat' split at h
    all_goals first
      | (injection h with h1 h2 h3; exact h2.symm)
      | (injection h with h1 h2 h3; exact absurd h1 (by simp))
  · intro st owner spender toAcct als amountStr amt hal hp hlt
    unfold TransferFrom
    simp only [hp, hal]
    rw [if_pos hlt]
  · intro st owner spender toAcct als fbs amountStr amt hal hg hp hla hlt
    unfold TransferFrom
    simp only [hp, hal, hg]
    rw [if_neg (not_lt.mpr hla), if_pos hlt]

/-- Witness for the C2 theorem: allowance `("o","s") = 10`, owner `"o" = 5`,
`TransferFrom("o", "s", "b", "3")` gives owner `2`, recipient `3`, and
allowance `"7"`. -/
theorem C2_transferFrom_amended_witness :
    lookupBal (TransferFrom [("allowanceos", "10"), ("o", "5")]
        ["o", "s", "b", "3"]).store "o" = atoiOr0 "5" - 3 ∧
    lookupBal (TransferFrom [("allowanceos", "10"), ("o", "5")]
        ["o", "s", "b", "3"]).store "b"
        = lookupBal [("allowanceos", "10"), ("o", "5")] "b" + 3 ∧
    getState (TransferFrom [("allowanceos", "10"), ("o", "5")]
        ["o", "s", "b", "3"]).store ("allowance" ++ "o" ++ "s")
        = some (itoa (atoiOr0 "10" - 3)) ∧
    (TransferFrom [("allowanceos", "10"), ("o", "5")] ["o", "s", "b", "3"]).resp
        = .success none :=
  C2_transferFrom_amended.1 [("allowanceos", "10"), ("o", "5")] "o" "s" "b" "10" "5" "3" 3
    (by decide) (by decide) (by decide) (by decide) (by decide) (by decide)
    (by decide) (by decide) (by decide) (by decide)

/-- Claim C3 (confirmed): for each of the six mutating operations and every
prior store and argument list, a failure caused by argument count, argument
parsing, insufficient balance, insufficient or absent allowance, or a
missing account is detected before any write is issued: the resulting store
equals the prior store.  In the source every such check precedes the first
`PutState` call of the operation. -/
theorem C3_no_partial_writes (op : OpName) (st : Store) (args : List String)
    (m : String) (st2 : Store) (evs : List (String × event))
    (h : applyOp op st args = ⟨.error m, st2, evs⟩)
    (hm : m ∈ validationMsgs) : st2 = st := by
  cases op with
  | initializeOp =>
      unfold applyOp InitializeOp at h
      dsimp only at h
      repeat' split at h
      all_goals first
        | (injection h with h1 h2 h3; exact h2.symm)
        | (injection h with h1 h2 h3; exact absurd h1 (by simp))
  | mint =>
      unfold applyOp Mint at h
      dsimp only at h
      repeat' split at h
      all_goals first
        | (injection h with h1 h2 h3; exact h2.symm)
        | (injection h with h1 h2 h3; exact absurd h1 (by simp))
  | burn =>
      unfold applyOp Burn at h
      dsimp only at h
      repeat' split at h
      all_goals first
        | (injection h with h1 h2 h3; exact h2.symm)
        | (injection h with h1 h2 h3; exact absurd h1 (by simp))
  | transfer =>
      unfold applyOp Transfer at h
      dsimp only at h
      repeat' split at h
      all_goals first
        | (injection h with h1 h2 h3; exact h2.symm)
        | (injection h with h1 h2 h3; exact absurd h1 (by simp))
  | approve =>
      unfold applyOp Approve at h
      dsimp only at h
      repeat' split at h
      all_goals first
        | (injection h with h1 h2 h3; exact h2.symm)
        | (injection h with h1 h2 h3; exact absurd h1 (by simp))
  | transferFrom =>
      unfold applyOp TransferFrom at h
      dsimp only at h
      repeat' split at h
      all_goals first
        | (injection h with h1 h2 h3; exact h2.symm)
        | (injection h with h1 h2 h3; exact absurd h1 (by simp))

/-- Witness for the C3 theorem: `Burn("a", "9")` on the store where `"a"`
holds `"5"` fails with "Insufficient balance" and leaves the store as it
was. -/
theorem C3_no_partial_writes_witness : ([("a", "5")] : Store) = [("a", "5")] :=
  C3_no_partial_writes .burn [("a", "5")] ["a", "9"] "Insufficient balance"
    [("a", "5")] [] (by decide) (by decide)

/-- Claim C4, counterexample: the per-key `Mint` never touches the stored
`totalSupply`.  From the store where `"totalSupply"` holds `"100"`,
`Mint("a", "5")` succeeds, but `totalSupply` still holds `"100"`, not the
`"105"` the claim's "the stored totalSupply increases by exactly amount"
requires. -/
theorem C4_mint_totalSupply_counterexample :
    (Mint [("totalSupply", "100")] ["a", "5"]).resp = .success none ∧
    getState (Mint [("totalSupply", "100")] ["a", "5"]).store totalSupplyKey
        = some "100" ∧
    ¬ getState (Mint [("totalSupply", "100")] ["a", "5"]).store totalSupplyKey
        = some "105" := by
  decide

/-- Claim C4 (corrected): a valid per-key `Mint(minter, amount)` increases
the minter's stored balance by exactly `amount` and records a `Transfer`
event with `from = ""`, `to = minter`, `value = amount`, but leaves the
stored `totalSupply` unchanged.  The map-variant `Mint(amount)` increases
both the caller's balance and the `Total` field by `amount` (modulo `2^64`),
but its `Transfer` event carries a textual payload, not a
`from`/`to`/`value` record. -/
theorem C4_mint_amended :
    (∀ st minter amountStr amt,
      atoi amountStr = some amt →
      minter ≠ totalSupplyKey →
      -9223372036854775808 ≤ lookupBal st minter + amt →
      lookupBal st minter + amt < 9223372036854775808 →
      Mint st [minter, amountStr] =
        ⟨.success none, putState st minter (itoa (lookupBal st minter + amt)),
         [("Transfer", ⟨"", minter, amt⟩)]⟩ ∧
      lookupBal (Mint st [minter, amountStr]).store minter
          = lookupBal st minter + amt ∧
      getState (Mint st [minter, amountStr]).store totalSupplyKey
          = getState st totalSupplyKey) ∧
    (∀ tok creatorHex amountStr uamt,
      parseUint64 amountStr = some uamt →
      TokenERC20Chaincode.Mint (some tok) creatorHex [amountStr] =
        ⟨.success none,
         some { tok with
                total := (tok.total + uamt) % 18446744073709551616
                balance := mapInsert tok.balance creatorHex
                  ((mapGet tok.balance creatorHex + uamt) % 18446744073709551616) },
         [("Transfer", "Minted " ++ natToString uamt ++ " tokens to " ++ creatorHex)]⟩) := by
  refine ⟨?_, ?_⟩
  · intro st minter amountStr amt hp hkey hlow hhigh
    have hw : wrap64 (lookupBal st minter + amt) = lookupBal st minter + amt :=
      wrap64_eq _ hlow hhigh
    have hout : Mint st [minter, amountStr] =
        ⟨.success none, putState st minter (itoa (lookupBal st minter + amt)),
         [("Transfer", ⟨"", minter, amt⟩)]⟩ := by
      unfold Mint
      simp only [hp]
      rw [hw]
    refine ⟨hout, ?_, ?_⟩
    · rw [hout]
      show lookupBal (putState st minter (itoa (lookupBal st minter + amt))) minter
          = lookupBal st minter + amt
      exact lookupBal_putState_self _ _ _ hlow (by omega)
    · rw [hout]
      show getState (putState st minter (itoa (lookupBal st minter + amt))) totalSupplyKey
          = getState st totalSupplyKey
      exact getState_putState_other _ _ _ _ (fun hh => hkey hh.symm)
  · intro tok creatorHex amountStr uamt hp
    unfold TokenERC20Chaincode.Mint
    simp only [hp]

/-- Witness for the C4 theorem: minting 5 to `"a"` over the store where
`totalSupply` holds `"100"` credits `"a"` with 5, leaves `totalSupply`
untouched; the map variant updates `Total` from 1000 to 1005. -/
theorem C4_mint_amended_witness :
    (Mint [("totalSupply", "100")] ["a", "5"] =
      ⟨.success none,
       putState [("totalSupply", "100")] "a"
         (itoa (lookupBal [("totalSupply", "100")] "a" + 5)),
       [("Transfer", ⟨"", "a", 5⟩)]⟩ ∧
     lookupBal (Mint [("totalSupply", "100")] ["a", "5"]).store "a"
        = lookupBal [("totalSupply", "100")] "a" + 5 ∧
     getState (Mint [("totalSupply", "100")] ["a", "5"]).store totalSupplyKey
        = getState [("totalSupply", "100")] totalSupplyKey) ∧
    TokenERC20Chaincode.Mint (some ⟨"Gold", "GLD", 1000, 2, [("c", 1000)]⟩) "c" ["5"] =
      ⟨.success none,
       some { (⟨"Gold", "GLD", 1000, 2, [("c", 1000)]⟩ : Token) with
              total := (1000 + 5) % 18446744073709551616
              balance := mapInsert [("c", 1000)] "c"
                ((mapGet [("c", 1000)] "c" + 5) % 18446744073709551616) },
       [("Transfer", "Minted " ++ natToString 5 ++ " tokens to " ++ "c")]⟩ :=
  ⟨C4_mint_amended.1 [("totalSupply", "100")] "a" "5" 5
     (by decide) (by decide) (by decide) (by decide),
   C4_mint_amended.2 ⟨"Gold", "GLD", 1000, 2, [("c", 1000)]⟩ "c" "5" 5 (by decide)⟩

/-- Claim C5, counterexample: the per-key `Burn` never touches the stored
`totalSupply`.  From the store where `"a"` holds `"10"` and `"totalSupply"`
holds `"100"`, `Burn("a", "4")` succeeds and leaves `"a"` at `"6"`, but
`totalSupply` still holds `"100"`, not the `"96"` the claim's "the stored
totalSupply decreases by exactly amount" requires. -/
theorem C5_burn_totalSupply_counterexample :
    (Burn [("a", "10"), ("totalSupply", "100")] ["a", "4"]).resp = .success none ∧
    getState (Burn [("a", "10"), ("totalSupply", "100")] ["a", "4"]).store "a"
        = some "6" ∧
    getState (Burn [("a", "10"), ("totalSupply", "100")] ["a", "4"]).store totalSupplyKey
        = some "100" ∧
    ¬ getState (Burn [("a", "10"), ("totalSupply", "100")] ["a", "4"]).store totalSupplyKey
        = some "96" := by
  decide

/-- Claim C5 (corrected): `Burn(account, amount)` with `amount` at most the
stored balance decreases that balance by exactly `amount` and records a
`Transfer` event to `""`, but leaves the stored `totalSupply` unchanged;
`Burn` with `amount` greater than the stored balance fails with
"Insufficient balance" and leaves the entire store unchanged. -/
theorem C5_burn_amended :
    (∀ st acct bs amountStr amt,
      getState st acct = some bs → atoi amountStr = some amt →
      0 ≤ amt → amt ≤ atoiOr0 bs → acct ≠ totalSupplyKey →
      Burn st [acct, amountStr] =
        ⟨.success none, putState st acct (itoa (atoiOr0 bs - amt)),
         [("Transfer", ⟨acct, "", amt⟩)]⟩ ∧
      lookupBal (Burn st [acct, amountStr]).store acct = atoiOr0 bs - amt ∧
      getState (Burn st [acct, amountStr]).store totalSupplyKey
          = getState st totalSupplyKey) ∧
    (∀ st acct bs amountStr amt,
      getState st acct = some bs → atoi amountStr = some amt →
      atoiOr0 bs < amt →
      Burn st [acct, amountStr] = ⟨.error "Insufficient balance", st, []⟩) := by
  refine ⟨?_, ?_⟩
  · intro st acct bs amountStr amt hg hp h0 hle hkey
    have hbb := atoiOr0_bound bs
    have hw : wrap64 (atoiOr0 bs - amt) = atoiOr0 bs - amt :=
      wrap64_eq _ (by omega) (by omega)
    have hout : Burn st [acct, amountStr] =
        ⟨.success none, putState st acct (itoa (atoiOr0 bs - amt)),
         [("Transfer", ⟨acct, "", amt⟩)]⟩ := by
      unfold Burn
      simp only [hp, hg]
      rw [if_neg (not_lt.mpr hle), hw]
    refine ⟨hout, ?_, ?_⟩
    · rw [hout]
      show lookupBal (putState st acct (itoa (atoiOr0 bs - amt))) acct = atoiOr0 bs - amt
      exact lookupBal_putState_self _ _ _ (by omega) (by omega)
    · rw [hout]
      show getState (putState st acct (itoa (atoiOr0 bs - amt))) totalSupplyKey
          = getState st totalSupplyKey
      exact getState_putState_other _ _ _ _ (fun hh => hkey hh.symm)
  · intro st acct bs amountStr amt hg hp hlt
    unfold Burn
    simp only [hp, hg]
    rw [if_pos hlt]

/-- Witness for the C5 theorem: burning 4 from `"a"` (balance 10) leaves
`"a" = 6` and `totalSupply` untouched; burning 11 fails and changes
nothing. -/
theorem C5_burn_amended_witness :
    (Burn [("a", "10"), ("totalSupply", "100")] ["a", "4"] =
      ⟨.success none,
       putState [("a", "10"), ("totalSupply", "100")] "a" (itoa (atoiOr0 "10" - 4)),
       [("Transfer", ⟨"a", "", 4⟩)]⟩ ∧
     lookupBal (Burn [("a", "10"), ("totalSupply", "100")] ["a", "4"]).store "a"
        = atoiOr0 "10" - 4 ∧
     getState (Burn [("a", "10"), ("totalSupply", "100")] ["a", "4"]).store totalSupplyKey
        = getState [("a", "10"), ("totalSupply", "100")] totalSupplyKey) ∧
    Burn [("a", "10"), ("totalSupply", "100")] ["a", "11"] =
      ⟨.error "Insufficient balance", [("a", "10"), ("totalSupply", "100")], []⟩ :=
  ⟨C5_burn_amended.1 [("a", "10"), ("totalSupply", "100")] "a" "10" "4" 4
     (by decide) (by decide) (by decide) (by decide) (by decide),
   C5_burn_amended.2 [("a", "10"), ("totalSupply", "100")] "a" "10" "11" 11
     (by decide) (by decide) (by decide)⟩

/-- Claim C6, counterexample: the per-key variants parse amounts with
`strconv.Atoi`, which accepts negative numbers.  On the empty store,
`Mint("a", "-5")` succeeds and stores the negative balance `"-5"` for `"a"`
instead of being rejected without effect. -/
theorem C6_negative_amount_counterexample :
    (Mint [] ["a", "-5"]).resp = .success none ∧
    getState (Mint [] ["a", "-5"]).store "a" = some "-5" ∧
    atoiOr0 "-5" < 0 := by
  decide

/-- Claim C6 (corrected): only the map variant enforces non-negativity, by
parsing amounts with `ParseUint` (a leading minus fails to parse, so the
invocation errors and the store is unchanged).  The per-key variants parse
amounts as signed integers: `Mint` with a negative amount stores a negative
balance, and `Approve` with a negative amount stores a negative allowance,
with no rejection. -/
theorem C6_nonnegativity_amended :
    (∀ cs, parseUint64 (String.mk ('-' :: cs)) = none) ∧
    (∀ st creatorHex amountStr,
      parseUint64 amountStr = none →
      TokenERC20Chaincode.Mint st creatorHex [amountStr] =
        ⟨.error "Invalid amount", st, []⟩) ∧
    (∀ st acct amountStr amt,
      atoi amountStr = some amt → amt < 0 → getState st acct = none →
      Mint st [acct, amountStr] =
        ⟨.success none, putState st acct (itoa amt),
         [("Transfer", ⟨"", acct, amt⟩)]⟩ ∧
      lookupBal (Mint st [acct, amountStr]).store acct = amt) ∧
    (∀ st owner spender amountStr amt,
      atoi amountStr = some amt → amt < 0 →
      Approve st [owner, spender, amountStr] =
        ⟨.success none,
         putState st ("allowance" ++ owner ++ spender) (itoa amt), []⟩ ∧
      lookupBal (Approve st [owner, spender, amountStr]).store
          ("allowance" ++ owner ++ spender) = amt) := by
  refine ⟨?_, ?_, ?_, ?_⟩
  · intro cs
    simp [parseUint64, parseDigits]
  · intro st creatorHex amountStr hp
    unfold TokenERC20Chaincode.Mint
    simp only [hp]
  · intro st acct amountStr amt hp hneg hg
    have hab := atoi_bound _ _ hp
    have hl : lookupBal st acct = 0 := by unfold lookupBal; rw [hg]
    have hw : wrap64 (lookupBal st acct + amt) = amt := by
      rw [hl, Int.zero_add]; exact wrap64_eq _ (by omega) (by omega)
    have hout : Mint st [acct, amountStr] =
        ⟨.success none, putState st acct (itoa amt),
         [("Transfer", ⟨"", acct, amt⟩)]⟩ := by
      unfold Mint
      simp only [hp]
      rw [hw]
    refine ⟨hout, ?_⟩
    rw [hout]
    show lookupBal (putState st acct (itoa amt)) acct = amt
    exact lookupBal_putState_self _ _ _ (by omega) (by omega)
  · intro st owner spender amountStr amt hp hneg
    have hab := atoi_bound _ _ hp
    have hout : Approve st [owner, spender, amountStr] =
        ⟨.success none,
         putState st ("allowance" ++ owner ++ spender) (itoa amt), []⟩ := by
      unfold Approve
      simp only [hp]
    refine ⟨hout, ?_⟩
    rw [hout]
    show lookupBal (putState st ("allowance" ++ owner ++ spender) (itoa amt))
        ("allowance" ++ owner ++ spender) = amt
    exact lookupBal_putState_self _ _ _ (by omega) (by omega)

/-- Witness for the C6 theorem: `"-7"` fails `ParseUint`; the map variant
rejects `Mint("-7")` without effect; the per-key `Mint("a", "-5")` on the
empty store leaves `"a"` at `-5`; `Approve("o", "s", "-9")` stores allowance
`-9`. -/
theorem C6_nonnegativity_amended_witness :
    parseUint64 (String.mk ('-' :: ['7'])) = none ∧
    TokenERC20Chaincode.Mint (some ⟨"T", "T", 0, 0, []⟩) "c" ["-7"] =
      ⟨.error "Invalid amount", some ⟨"T", "T", 0, 0, []⟩, []⟩ ∧
    lookupBal (Mint [] ["a", "-5"]).store "a" = -5 ∧
    lookupBal (Approve [] ["o", "s", "-9"]).store ("allowance" ++ "o" ++ "s") = -9 :=
  ⟨C6_nonnegativity_amended.1 ['7'],
   C6_nonnegativity_amended.2.1 (some ⟨"T", "T", 0, 0, []⟩) "c" "-7" (by decide),
   (C6_nonnegativity_amended.2.2.1 [] "a" "-5" (-5) (by decide) (by decide) (by decide)).2,
   (C6_nonnegativity_amended.2.2.2 [] "o" "s" "-9" (-9) (by decide) (by decide)).2⟩

theorem parseUint64_lt (s : String) (n : Nat) (h : parseUint64 s = some n) :
    n < 18446744073709551616 := by
  unfold parseUint64 at h
  repeat' split at h
  all_goals first
    | (injection h with h1; omega)
    | exact absurd h (by simp)

/-- Claim C7, counterexample: the map-variant `Mint` performs wrapping
`uint64` addition with no overflow check.  With `Total` at the `uint64`
maximum `18446744073709551615`, `Mint("1")` succeeds and stores the
wrapped-around `Total = 0` instead of failing with an explicit error and no
state change. -/
theorem C7_overflow_counterexample :
    TokenERC20Chaincode.Mint (some ⟨"T", "S", 18446744073709551615, 0, []⟩) "c" ["1"] =
      ⟨.success none, some ⟨"T", "S", 0, 0, [("c", 1)]⟩,
       [("Transfer", "Minted 1 tokens to c")]⟩ := by
  decide

/-- Claim C7 (corrected): no operation checks for 64-bit overflow.  The
map-variant `Mint` adds amounts to `Total` and to the caller's balance
modulo `2^64` and succeeds; when the true sum reaches `2^64` the stored
`Total` is the wrapped value `total + amount - 2^64`.  (The per-key
variants likewise wrap their signed 64-bit arithmetic, see the C1/C4
theorems; their `Atoi` parsing rejects only amounts whose decimal text
exceeds the `int64` range.) -/
theorem C7_overflow_amended :
    (∀ tok creatorHex amountStr uamt,
      parseUint64 amountStr = some uamt →
      TokenERC20Chaincode.Mint (some tok) creatorHex [amountStr] =
        ⟨.success none,
         some { tok with
                total := (tok.total + uamt) % 18446744073709551616
                balance := mapInsert tok.balance creatorHex
                  ((mapGet tok.balance creatorHex + uamt) % 18446744073709551616) },
         [("Transfer", "Minted " ++ natToString uamt ++ " tokens to " ++ creatorHex)]⟩) ∧
    (∀ tok creatorHex amountStr uamt,
      parseUint64 amountStr = some uamt →
      tok.total < 18446744073709551616 →
      18446744073709551616 ≤ tok.total + uamt →
      (TokenERC20Chaincode.Mint (some tok) creatorHex [amountStr]).resp = .success none ∧
      ∃ t1, (TokenERC20Chaincode.Mint (some tok) creatorHex [amountStr]).store = some t1 ∧
        t1.total = tok.total + uamt - 18446744073709551616) := by
  have hmain : ∀ tok creatorHex amountStr uamt,
      parseUint64 amountStr = some uamt →
      TokenERC20Chaincode.Mint (some tok) creatorHex [amountStr] =
        ⟨.success none,
         some { tok with
                total := (tok.total + uamt) % 18446744073709551616
                balance := mapInsert tok.balance creatorHex
                  ((mapGet tok.balance creatorHex + uamt) % 18446744073709551616) },
         [("Transfer", "Minted " ++ natToString uamt ++ " tokens to " ++ creatorHex)]⟩ := by
    intro tok creatorHex amountStr uamt hp
    unfold TokenERC20Chaincode.Mint
    simp only [hp]
  refine ⟨hmain, ?_⟩
  intro tok creatorHex amountStr uamt hp htot hov
  have hlt := parseUint64_lt _ _ hp
  rw [hmain tok creatorHex amountStr uamt hp]
  refine ⟨rfl, ⟨_, rfl, ?_⟩⟩
  show (tok.total + uamt) % 18446744073709551616
      = tok.total + uamt - 18446744073709551616
  omega

/-- Witness for the C7 theorem: minting 1 at `Total = 2^64 - 1` stores the
wrapped total 0 and reports success. -/
theorem C7_overflow_amended_witness :
    TokenERC20Chaincode.Mint (some ⟨"T", "S", 18446744073709551615, 0, []⟩) "c" ["1"] =
      ⟨.success none,
       some { (⟨"T", "S", 18446744073709551615, 0, []⟩ : Token) with
              total := (18446744073709551615 + 1) % 18446744073709551616
              balance := mapInsert [] "c"
                ((mapGet [] "c" + 1) % 18446744073709551616) },
       [("Transfer", "Minted " ++ natToString 1 ++ " tokens to " ++ "c")]⟩ ∧
    (TokenERC20Chaincode.Mint (some ⟨"T", "S", 18446744073709551615, 0, []⟩) "c" ["1"]).resp
        = .success none ∧
    ∃ t1, (TokenERC20Chaincode.Mint
        (some ⟨"T", "S", 18446744073709551615, 0, []⟩) "c" ["1"]).store = some t1 ∧
      t1.total = 18446744073709551615 + 1 - 18446744073709551616 :=
  ⟨C7_overflow_amended.1 ⟨"T", "S", 18446744073709551615, 0, []⟩ "c" "1" 1 (by decide),
   C7_overflow_amended.2 ⟨"T", "S", 18446744073709551615, 0, []⟩ "c" "1" 1
     (by decide) (by decide) (by decide)⟩

/-- Claim C8, counterexample: `Allowance("o", "s")` on a store with no
allowance ever set fails with "Allowance not found" instead of succeeding
with `0`. -/
theorem C8_allowance_unset_counterexample :
    (Allowance [] ["o", "s"]).resp = .error "Allowance not found" ∧
    ¬ (Allowance [] ["o", "s"]).resp = .success (some "0") := by
  decide

/-- Claim C8 (corrected): an `Allowance(owner, spender)` query for a pair
whose allowance key holds no stored value fails with "Allowance not found"
(leaving the store unchanged); an unset allowance is an error, not a
successful `0`.  When the key holds a value, the query succeeds and returns
that stored string. -/
theorem C8_allowance_amended :
    (∀ st owner spender,
      getState st ("allowance" ++ owner ++ spender) = none →
      Allowance st [owner, spender] = ⟨.error "Allowance not found", st, []⟩) ∧
    (∀ st owner spender v,
      getState st ("allowance" ++ owner ++ spender) = some v →
      Allowance st [owner, spender] = ⟨.success (some v), st, []⟩) := by
  refine ⟨?_, ?_⟩
  · intro st owner spender h
    unfold Allowance
    simp only [h]
  · intro st owner spender v h
    unfold Allowance
    simp only [h]

/-- Witness for the C8 theorem: on the empty store the query errors; with
`"allowanceos"` bound to `"4"`, `Allowance("o", "s")` returns `"4"`. -/
theorem C8_allowance_amended_witness :
    Allowance [] ["o", "s"] = ⟨.error "Allowance not found", [], []⟩ ∧
    Allowance [("allowanceos", "4")] ["o", "s"] =
      ⟨.success (some "4"), [("allowanceos", "4")], []⟩ :=
  ⟨C8_allowance_amended.1 [] "o" "s" (by decide),
   C8_allowance_amended.2 [("allowanceos", "4")] "o" "s" "4" (by decide)⟩

/-- Claim C9, counterexample: `Transfer` performs no empty-recipient check.
From the store where `"a"` holds `"5"`, `Transfer("a", "", "3")` succeeds
(rather than being rejected) and stores balance `"3"` under the
empty-string key. -/
theorem C9_empty_recipient_counterexample :
    (Transfer [("a", "5")] ["a", "", "3"]).resp = .success none ∧
    getState (Transfer [("a", "5")] ["a", "", "3"]).store "" = some "3" ∧
    ¬ (Transfer [("a", "5")] ["a", "", "3"]).store = [("a", "5")] := by
  decide

/-- Claim C9 (corrected): neither `Transfer` nor `TransferFrom` rejects an
empty recipient address.  With a sufficient sender balance (and allowance,
for `TransferFrom`), a transfer to `""` succeeds and credits the amount to
the balance stored under the empty-string key. -/
theorem C9_empty_recipient_amended :
    (∀ st fromAcct fbs amountStr amt,
      getState st fromAcct = some fbs → atoi amountStr = some amt →
      0 ≤ amt → amt ≤ atoiOr0 fbs →
      lookupBal st "" + amt < 9223372036854775808 →
      (Transfer st [fromAcct, "", amountStr]).resp = .success none ∧
      getState (Transfer st [fromAcct, "", amountStr]).store ""
          = some (itoa (lookupBal st "" + amt))) ∧
    (∀ st owner spender als fbs amountStr amt,
      getState st ("allowance" ++ owner ++ spender) = some als →
      getState st owner = some fbs →
      atoi amountStr = some amt → 0 ≤ amt →
      amt ≤ atoiOr0 als → amt ≤ atoiOr0 fbs →
      lookupBal st "" + amt < 9223372036854775808 →
      (TransferFrom st [owner, spender, "", amountStr]).resp = .success none ∧
      getState (TransferFrom st [owner, spender, "", amountStr]).store ""
          = some (itoa (lookupBal st "" + amt))) := by
  refine ⟨?_, ?_⟩
  · intro st fromAcct fbs amountStr amt hg hp h0 hle hov
    have hbb := atoiOr0_bound fbs
    have htb := lookupBal_bound st ""
    have hw1 : wrap64 (atoiOr0 fbs - amt) = atoiOr0 fbs - amt :=
      wrap64_eq _ (by omega) (by omega)
    have hw2 : wrap64 (lookupBal st "" + amt) = lookupBal st "" + amt :=
      wrap64_eq _ (by omega) (by omega)
    have hout : Transfer st [fromAcct, "", amountStr] =
        ⟨.success none,
         putState (putState st fromAcct (itoa (atoiOr0 fbs - amt))) ""
           (itoa (lookupBal st "" + amt)),
         [("Transfer", ⟨fromAcct, "", amt⟩)]⟩ := by
      unfold Transfer
      simp only [hp, hg]
      rw [if_neg (not_lt.mpr hle), hw1, hw2]
    rw [hout]
    exact ⟨rfl, getState_putState_self _ _ _⟩
  · intro st owner spender als fbs amountStr amt hal hg hp h0 hla hlb hov
    have hbb := atoiOr0_bound fbs
    have hba := atoiOr0_bound als
    have htb := lookupBal_bound st ""
    have hw1 : wrap64 (atoiOr0 fbs - amt) = atoiOr0 fbs - amt :=
      wrap64_eq _ (by omega) (by omega)
    have hw2 : wrap64 (lookupBal st "" + amt) = lookupBal st "" + amt :=
      wrap64_eq _ (by omega) (by omega)
    have hw3 : wrap64 (atoiOr0 als - amt) = atoiOr0 als - amt :=
      wrap64_eq _ (by omega) (by omega)
    have hout : TransferFrom st [owner, spender, "", amountStr] =
        ⟨.success none,
         putState (putState (putState st owner (itoa (atoiOr0 fbs - amt))) ""
             (itoa (lookupBal st "" + amt))) ("allowance" ++ owner ++ spender)
           (itoa (atoiOr0 als - amt)),
         [("Transfer", ⟨owner, "", amt⟩)]⟩ := by
      unfold TransferFrom
      simp only [hp, hal, hg]
      rw [if_neg (not_lt.mpr hla), if_neg (not_lt.mpr hlb), hw1, hw2, hw3]
    rw [hout]
    refine ⟨rfl, ?_⟩
    show getState (putState (putState (putState st owner (itoa (atoiOr0 fbs - amt))) ""
        (itoa (lookupBal st "" + amt))) ("allowance" ++ owner ++ spender)
        (itoa (atoiOr0 als - amt))) "" = some (itoa (lookupBal st "" + amt))
    rw [getState_putState_other _ _ _ _ (fun hh => allowance_key_ne_empty owner spender hh.symm)]
    exact getState_putState_self _ _ _

/-- Witness for the C9 theorem: both empty-recipient transfers succeed and
credit the empty-string key. -/
theorem C9_empty_recipient_amended_witness :
    ((Transfer [("a", "5")] ["a", "", "3"]).resp = .success none ∧
     getState (Transfer [("a", "5")] ["a", "", "3"]).store ""
        = some (itoa (lookupBal [("a", "5")] "" + 3))) ∧
    ((TransferFrom [("allowanceos", "10"), ("o", "5")] ["o", "s", "", "3"]).resp
        = .success none ∧
     getState (TransferFrom [("allowanceos", "10"), ("o", "5")]
        ["o", "s", "", "3"]).store ""
        = some (itoa (lookupBal [("allowanceos", "10"), ("o", "5")] "" + 3))) :=
  ⟨C9_empty_recipient_amended.1 [("a", "5")] "a" "5" "3" 3
     (by decide) (by decide) (by decide) (by decide) (by decide),
   C9_empty_recipient_amended.2 [("allowanceos", "10"), ("o", "5")] "o" "s" "10" "5" "3" 3
     (by decide) (by decide) (by decide) (by decide) (by decide) (by decide) (by decide)⟩

/-- Claim C10 (confirmed): in the map variant, `ClientAccountBalance` for a
caller absent from the balance map does not leave the state unchanged: it
writes the token record back extended with a zero-balance entry for the
caller's address, then returns `"0"` — so this balance query mutates the
store. -/
theorem C10_client_balance_query_mutates (tok : Token) (addr : String)
    (h : mapGetOpt tok.balance addr = none) :
    TokenERC20Chaincode.ClientAccountBalance (some tok) addr =
      ⟨.success (some "0"),
       some { tok with balance := mapInsert tok.balance addr 0 }, []⟩ ∧
    ¬ (TokenERC20Chaincode.ClientAccountBalance (some tok) addr).store = some tok := by
  have hout : TokenERC20Chaincode.ClientAccountBalance (some tok) addr =
      ⟨.success (some "0"),
       some { tok with balance := mapInsert tok.balance addr 0 }, []⟩ := by
    unfold TokenERC20Chaincode.ClientAccountBalance
    simp only [h]
    rfl
  refine ⟨hout, ?_⟩
  rw [hout]
  show ¬ some { tok with balance := mapInsert tok.balance addr 0 } = some tok
  intro hcontra
  injection hcontra with h2
  have hb : mapInsert tok.balance addr 0 = tok.balance := congrArg Token.balance h2
  have h1 : mapGetOpt (mapInsert tok.balance addr 0) addr = some 0 :=
    mapGetOpt_mapInsert_self _ _ _
  rw [hb, h] at h1
  exact absurd h1 (by simp)

/-- Witness for the C10 theorem: querying the balance of the unseen caller
`"y"` rewrites the token record, adding `("y", 0)` to the balance map. -/
theorem C10_client_balance_query_mutates_witness :
    TokenERC20Chaincode.ClientAccountBalance
        (some ⟨"Gold", "GLD", 1000, 2, [("x", 1000)]⟩) "y" =
      ⟨.success (some "0"),
       some { (⟨"Gold", "GLD", 1000, 2, [("x", 1000)]⟩ : Token) with
              balance := mapInsert [("x", 1000)] "y" 0 }, []⟩ ∧
    ¬ (TokenERC20Chaincode.ClientAccountBalance
        (some ⟨"Gold", "GLD", 1000, 2, [("x", 1000)]⟩) "y").store
        = some ⟨"Gold", "GLD", 1000, 2, [("x", 1000)]⟩ :=
  C10_client_balance_query_mutates ⟨"Gold", "GLD", 1000, 2, [("x", 1000)]⟩ "y" (by decide)
